import Mathlib

/-!
Verification development for the ABM budget-monitor core: a shallow embedding
of the statement-normalization helpers in utils/budget.py and of the
risk-detection engine in utils/risk.py, together with theorems settling the
frozen specification claims.

Conventions of the embedding:
- Python float cells are modelled as exact rationals; a cell that fails the
  Python float conversion, or a missing cell, is modelled as Option.none.
- pandas timestamps are modelled as calendar dates (year, month, day); the
  tables in question carry midnight timestamps only.
- Exceptions raised by the scanner are modelled with Except.
-/

set_option maxRecDepth 4000

/-- A calendar date, modelling a pandas Timestamp at midnight. -/
structure Date where
  year : Int
  month : Nat
  day : Nat
deriving DecidableEq, Repr

/-- Leap-year rule of the Gregorian calendar. -/
def isLeap (y : Int) : Bool :=
  (y % 4 = 0 && y % 100 ≠ 0) || y % 400 = 0

/-- Number of days in a month of a given year. -/
def daysInMonth (y : Int) (m : Nat) : Nat :=
  if m = 1 then 31 else if m = 2 then (if isLeap y then 29 else 28)
  else if m = 3 then 31 else if m = 4 then 30 else if m = 5 then 31
  else if m = 6 then 30 else if m = 7 then 31 else if m = 8 then 31
  else if m = 9 then 30 else if m = 10 then 31 else if m = 11 then 30
  else if m = 12 then 31 else 0

/-- Day count since 1970-01-01 (standard civil-from-days algorithm); models
subtraction of two pandas Timestamps measured in whole days. -/
def daysFromCivil (dt : Date) : Int :=
  let y : Int := if dt.month ≤ 2 then dt.year - 1 else dt.year
  let m : Int := dt.month
  let d : Int := dt.day
  let era : Int := Int.ediv y 400
  let yoe : Int := y - era * 400
  let doy : Int := Int.ediv (153 * (if 2 < m then m - 3 else m + 9) + 2) 5 + d - 1
  let doe : Int := yoe * 365 + Int.ediv yoe 4 - Int.ediv yoe 100 + doy
  era * 146097 + doe - 719468

/-- Chronological comparison of two dates, as pandas compares Timestamps. -/
def dateLe (a b : Date) : Prop := daysFromCivil a ≤ daysFromCivil b

instance : DecidableRel dateLe := fun a b => by unfold dateLe; infer_instance

/-- Index of the calendar month of a date on the time line; two dates fall in
the same resample bucket of frequency M exactly when this agrees. -/
def monthIdx (d : Date) : Int := d.year * 12 + (d.month : Int) - 1

/-- Subtract n months from a date, clamping the day to the target month, as
pandas DateOffset arithmetic does. -/
def subMonths (d : Date) (n : Nat) : Date :=
  let t : Int := d.year * 12 + (d.month : Int) - 1 - (n : Int)
  let y : Int := Int.ediv t 12
  let m : Nat := (Int.emod t 12).toNat + 1
  ⟨y, m, min d.day (daysInMonth y m)⟩

/-- Does the list start with the given pattern of characters. -/
def listStartsWith : List Char → List Char → Bool
  | _, [] => true
  | [], _ :: _ => false
  | c :: cs, p :: ps => c = p && listStartsWith cs ps

/-- Does the pattern occur as a contiguous run somewhere in the list; models
the Python substring test (the operator in of str). -/
def listHasSub (sub : List Char) : List Char → Bool
  | [] => listStartsWith [] sub
  | c :: cs => listStartsWith (c :: cs) sub || listHasSub sub cs

/-- Python substring containment on strings. -/
def strHasSub (hay sub : String) : Bool := listHasSub sub.toList hay.toList

/-- Python str.endswith on strings. -/
def strEndsWith (hay suf : String) : Bool :=
  listStartsWith hay.toList.reverse suf.toList.reverse

/-- Python str.lower restricted to the ASCII inputs in scope, implemented
over the character list so that proofs can evaluate it. -/
def toLowerStr (s : String) : String := String.mk (s.toList.map Char.toLower)

/-- Python str.strip (whitespace from both ends), implemented over the
character list so that proofs can evaluate it. -/
def trimStr (s : String) : String :=
  String.mk (((s.toList.dropWhile Char.isWhitespace).reverse.dropWhile
    Char.isWhitespace).reverse)

/-- Model of the Python float() conversion restricted to strings whose
characters are decimal digits, a dot or a hyphen (the only characters that
survive the cleaning step below): an optional leading minus sign followed by
a digit string holding at most one dot and at least one digit. Any other
shape raises in Python and is modelled as none. -/
def pyFloat? (s : String) : Option ℚ :=
  let cs := s.toList
  let signed := match cs with
    | '-' :: rest => (true, rest)
    | _ => (false, cs)
  let body := signed.2
  if body.any (fun c => c = '-') then none
  else
    let intPart := body.takeWhile (fun c => c ≠ '.')
    let rest := body.dropWhile (fun c => c ≠ '.')
    let fracPart := match rest with
      | '.' :: fr => some fr
      | _ => none
    match fracPart with
    | none =>
      if intPart.all Char.isDigit ∧ intPart ≠ [] then
        let v : ℚ := (intPart.foldl (fun a c => a * 10 + (c.toNat - 48)) 0 : ℕ)
        some (if signed.1 then -v else v)
      else none
    | some fr =>
      if fr.any (fun c => c = '.') then none
      else if intPart.all Char.isDigit ∧ fr.all Char.isDigit ∧ (intPart ≠ [] ∨ fr ≠ []) then
        let iv : ℕ := intPart.foldl (fun a c => a * 10 + (c.toNat - 48)) 0
        let fv : ℕ := fr.foldl (fun a c => a * 10 + (c.toNat - 48)) 0
        let v : ℚ := (iv : ℚ) + (fv : ℚ) / ((10 : ℚ) ^ fr.length)
        some (if signed.1 then -v else v)
      else none

/-- Model of the helper that cleans a raw amount cell in utils/budget.py: a
missing cell gives none; the trimmed text is reduced to the characters that
are digits, dots or hyphens (this subsumes the explicit removal of the rupee
sign and of commas); results that are empty or a lone dot or hyphen give
none; anything else goes through the float conversion, failure giving none. -/
def clean_amount : Option String → Option ℚ
  | none => none
  | some v =>
    let s := trimStr v
    if s = "" then none
    else
      let t := String.mk (s.toList.filter (fun c => c.isDigit || c = '.' || c = '-'))
      if t = "" ∨ t = "." ∨ t = "-" then none
      else pyFloat? t

/-- Does a (lower-cased) type text carry a debit cue: it contains debit or dr
as a substring. Mirrors the first branch of normalize_amount. -/
def typeHasDebitCue (typ : String) : Bool :=
  strHasSub (toLowerStr typ) "debit" || strHasSub (toLowerStr typ) "dr"

/-- Does a (lower-cased) type text carry a credit cue: it contains credit or
cr as a substring. Mirrors the second branch of normalize_amount. -/
def typeHasCreditCue (typ : String) : Bool :=
  strHasSub (toLowerStr typ) "credit" || strHasSub (toLowerStr typ) "cr"

/-- The text Python obtains for the raw amount cell inside normalize_amount:
str of the cell, which renders a missing cell as the text nan, lower-cased. -/
def rawAmountText (raw : Option String) : String :=
  toLowerStr (match raw with | some s => s | none => "nan")

/-- Credit cue carried by the raw amount text: it ends with cr or contains
cr preceded by a space. -/
def rawHasCrCue (raw : Option String) : Bool :=
  strEndsWith (rawAmountText raw) "cr" || strHasSub (rawAmountText raw) " cr"

/-- Debit cue carried by the raw amount text: it ends with dr or contains
dr preceded by a space. -/
def rawHasDrCue (raw : Option String) : Bool :=
  strEndsWith (rawAmountText raw) "dr" || strHasSub (rawAmountText raw) " dr"

/-- Sign normalization of one row in utils/budget.py (normalize_amount): a
null amount stays null; a type with a debit cue forces minus absolute value;
otherwise a type with a credit cue forces plus absolute value; otherwise cr
or dr cues in the raw amount text decide; otherwise the parsed sign stays. -/
def normalize_amount (typ : String) (raw : Option String) : Option ℚ → Option ℚ
  | none => none
  | some amt =>
    if typeHasDebitCue typ then some (-|amt|)
    else if typeHasCreditCue typ then some |amt|
    else if rawHasCrCue raw then some |amt|
    else if rawHasDrCue raw then some (-|amt|)
    else some amt

/-- A row of the working table just before amount cleaning: its type text
(already cast and trimmed upstream) and its raw amount cell. -/
structure RawTxn where
  typ : String
  amount_raw : Option String
deriving DecidableEq

/-- The final (type, amount) projection of the normalizer tail in
read_statement: amounts are cleaned from the raw text, sign-normalized, and
rows whose amount ended up null are dropped. -/
def finalizeAmounts (rows : List RawTxn) : List (String × ℚ) :=
  rows.filterMap (fun r =>
    (normalize_amount r.typ r.amount_raw (clean_amount r.amount_raw)).map
      (fun a => (r.typ, a)))

/-- Word characters of the regex word-boundary rule, for the ASCII inputs in
scope: letters, digits and the underscore. -/
def isWordChar (c : Char) : Bool := c.isAlphanum || c = '_'

/-- The month-name alternatives of DATE_RE in utils/budget.py, in the order
the regex alternation tries them; within one month the greedy optional
suffix makes the long form try first. The Sep branch of the regex requires
the t, so plain Sep is absent. -/
def monthCands : List (List Char) :=
  [String.toList "january", String.toList "jan",
   String.toList "february", String.toList "feb",
   String.toList "march", String.toList "mar",
   String.toList "april", String.toList "apr",
   String.toList "may",
   String.toList "june", String.toList "jun",
   String.toList "july", String.toList "jul",
   String.toList "august", String.toList "aug",
   String.toList "september", String.toList "sept",
   String.toList "october", String.toList "oct",
   String.toList "november", String.toList "nov",
   String.toList "december", String.toList "dec"]

/-- Case-insensitively strip a lower-case pattern from the front of the
input, returning the remainder. -/
def stripPat : List Char → List Char → Option (List Char)
  | [], rest => some rest
  | _ :: _, [] => none
  | p :: ps, c :: cs => if c.toLower = p then stripPat ps cs else none

/-- Split leading whitespace (greedy star of the whitespace class). -/
def spanWS (cs : List Char) : List Char × List Char :=
  (cs.takeWhile Char.isWhitespace, cs.dropWhile Char.isWhitespace)

/-- Match exactly four digits, returning them; trailing input may remain. -/
def matchYear4 : List Char → Option (List Char)
  | a :: b :: c :: d :: _ =>
    if a.isDigit && b.isDigit && c.isDigit && d.isDigit then some [a, b, c, d]
    else none
  | _ => none

/-- Match the optional comma, optional whitespace and four-digit year that
close DATE_RE, returning the consumed characters. -/
def matchAfterDay (cs : List Char) : Option (List Char) :=
  let noComma :=
    let p := spanWS cs
    (matchYear4 p.2).map (fun y => p.1 ++ y)
  match cs with
  | ',' :: rest =>
    let p := spanWS rest
    (match matchYear4 p.2 with
     | some y => some (',' :: (p.1 ++ y))
     | none => noComma)
  | _ => noComma

/-- Match the one-or-two-digit day of DATE_RE (greedy, with backtracking to
one digit) followed by the year part, returning the consumed characters. -/
def matchDayTail : List Char → Option (List Char)
  | a :: b :: rest =>
    if a.isDigit then
      if b.isDigit then
        match matchAfterDay rest with
        | some m => some (a :: b :: m)
        | none => (matchAfterDay (b :: rest)).map (fun m => a :: m)
      else (matchAfterDay (b :: rest)).map (fun m => a :: m)
    else none
  | [a] => if a.isDigit then (matchAfterDay []).map (fun m => [a] ++ m) else none
  | [] => none

/-- Try to match the DATE_RE tail (whitespace, day, comma, whitespace, year)
at the given position. -/
def matchTail (cs : List Char) : Option (List Char) :=
  let p := spanWS cs
  (matchDayTail p.2).map (fun m => p.1 ++ m)

/-- Try every month-name alternative of DATE_RE at this position; a
candidate must be followed by a word boundary and then the tail. Returns the
matched substring in its original characters. -/
def matchMonthAt (cs : List Char) : Option (List Char) :=
  monthCands.findSome? (fun cand =>
    match stripPat cand cs with
    | none => none
    | some rest =>
      let boundary := match rest with
        | [] => true
        | c :: _ => !(isWordChar c)
      if boundary then
        (matchTail rest).map (fun t => cs.take cand.length ++ t)
      else none)

/-- Leftmost search of DATE_RE over the input, carrying the previous
character for the leading word-boundary test. -/
def dateSearchAux : List Char → Option Char → Option (List Char)
  | [], _ => none
  | c :: cs, prev =>
    let bOk := match prev with
      | none => true
      | some p => !(isWordChar p)
    match (if bOk then matchMonthAt (c :: cs) else none) with
    | some m => some m
    | none => dateSearchAux cs (some c)

/-- re.search of DATE_RE on a string: the leftmost embedded month-name date
pattern, as the matched substring, when one exists. -/
def dateSearch (s : String) : Option String :=
  (dateSearchAux s.toList none).map String.mk

/-- Tokens of the strptime format templates used by parse_date. A whitespace
run in a format matches one or more whitespace characters; the day and month
directives match one or two digits with the range checks of the CPython
matcher; the year directive matches exactly four digits. -/
inductive FTok
  | monAbbrev
  | monFull
  | dayTok
  | monthNumTok
  | yearTok
  | wsTok
  | litTok (c : Char)
deriving DecidableEq

/-- The day alternatives of the CPython strptime matcher in trial order:
thirty-one or thirty, twenty-something or teens, zero-padded single digit,
bare single digit. Returns every possible (value, rest) pair in order. -/
def dayAlts : List Char → List (Nat × List Char)
  | a :: b :: rest =>
    (if a = '3' && (b = '0' || b = '1') then [(30 + (b.toNat - 48), rest)] else []) ++
    (if (a = '1' || a = '2') && b.isDigit then
      [((a.toNat - 48) * 10 + (b.toNat - 48), rest)] else []) ++
    (if a = '0' && b.isDigit && b ≠ '0' then [(b.toNat - 48, rest)] else []) ++
    (if a.isDigit && a ≠ '0' then [(a.toNat - 48, b :: rest)] else [])
  | [a] => if a.isDigit && a ≠ '0' then [(a.toNat - 48, [])] else []
  | [] => []

/-- The month-number alternatives of the CPython strptime matcher in trial
order: ten to twelve, zero-padded single digit, bare single digit. -/
def monthNumAlts : List Char → List (Nat × List Char)
  | a :: b :: rest =>
    (if a = '1' && (b = '0' || b = '1' || b = '2') then
      [(10 + (b.toNat - 48), rest)] else []) ++
    (if a = '0' && b.isDigit && b ≠ '0' then [(b.toNat - 48, rest)] else []) ++
    (if a.isDigit && a ≠ '0' then [(a.toNat - 48, b :: rest)] else [])
  | [a] => if a.isDigit && a ≠ '0' then [(a.toNat - 48, [])] else []
  | [] => []

/-- Abbreviated month names recognized by the abbreviated-month directive. -/
def monAbbrevNames : List (Nat × List Char) :=
  [(1, String.toList "jan"), (2, String.toList "feb"), (3, String.toList "mar"),
   (4, String.toList "apr"), (5, String.toList "may"), (6, String.toList "jun"),
   (7, String.toList "jul"), (8, String.toList "aug"), (9, String.toList "sep"),
   (10, String.toList "oct"), (11, String.toList "nov"), (12, String.toList "dec")]

/-- Full month names recognized by the full-month directive. -/
def monFullNames : List (Nat × List Char) :=
  [(1, String.toList "january"), (2, String.toList "february"),
   (3, String.toList "march"), (4, String.toList "april"), (5, String.toList "may"),
   (6, String.toList "june"), (7, String.toList "july"), (8, String.toList "august"),
   (9, String.toList "september"), (10, String.toList "october"),
   (11, String.toList "november"), (12, String.toList "december")]

/-- Backtracking matcher for one format template over the whole input: the
entire string must be consumed, as strptime requires. Accumulates the
(year, month, day) fields. -/
def matchToks : List FTok → List Char → Int × Nat × Nat → Option (Int × Nat × Nat)
  | [], [], acc => some acc
  | [], _ :: _, _ => none
  | t :: ts, cs, acc =>
    match t with
    | .wsTok =>
      (match cs with
       | c :: _ =>
         if c.isWhitespace then matchToks ts (cs.dropWhile Char.isWhitespace) acc
         else none
       | [] => none)
    | .litTok c =>
      (match cs with
       | x :: rest => if x = c then matchToks ts rest acc else none
       | [] => none)
    | .yearTok =>
      (match cs with
       | a :: b :: c :: d :: rest =>
         if a.isDigit && b.isDigit && c.isDigit && d.isDigit then
           let y : Int := ((a.toNat - 48) * 1000 + (b.toNat - 48) * 100 +
             (c.toNat - 48) * 10 + (d.toNat - 48) : Nat)
           matchToks ts rest (y, acc.2.1, acc.2.2)
         else none
       | _ => none)
    | .dayTok =>
      (dayAlts cs).findSome? (fun p => matchToks ts p.2 (acc.1, acc.2.1, p.1))
    | .monthNumTok =>
      (monthNumAlts cs).findSome? (fun p => matchToks ts p.2 (acc.1, p.1, acc.2.2))
    | .monAbbrev =>
      monAbbrevNames.findSome? (fun p =>
        (stripPat p.2 cs).bind (fun rest => matchToks ts rest (acc.1, p.1, acc.2.2)))
    | .monFull =>
      monFullNames.findSome? (fun p =>
        (stripPat p.2 cs).bind (fun rest => matchToks ts rest (acc.1, p.1, acc.2.2)))

/-- The seven fixed format templates parse_date tries, in source order. -/
def dateFormats : List (List FTok) :=
  [[.monAbbrev, .wsTok, .dayTok, .litTok ',', .wsTok, .yearTok],
   [.monFull, .wsTok, .dayTok, .litTok ',', .wsTok, .yearTok],
   [.dayTok, .wsTok, .monAbbrev, .wsTok, .yearTok],
   [.dayTok, .wsTok, .monFull, .wsTok, .yearTok],
   [.dayTok, .litTok '-', .monthNumTok, .litTok '-', .yearTok],
   [.dayTok, .litTok '/', .monthNumTok, .litTok '/', .yearTok],
   [.yearTok, .litTok '-', .monthNumTok, .litTok '-', .dayTok]]

/-- Validity check the datetime constructor performs after a format matched:
the year is at least one and the day fits the month. -/
def validDate (p : Int × Nat × Nat) : Option Date :=
  if 1 ≤ p.1 ∧ 1 ≤ p.2.2 ∧ p.2.2 ≤ daysInMonth p.1 p.2.1 then
    some ⟨p.1, p.2.1, p.2.2⟩
  else none

/-- Try the fixed format templates against a matched date substring, in
order, returning the first that parses to a valid date. -/
def tryFormats (s : String) : Option Date :=
  dateFormats.findSome? (fun f => (matchToks f s.toList (1900, 1, 1)).bind validDate)

/-- Model of parse_date in utils/budget.py, parametrized by the
general-purpose free-form parser fb (the pandas to_datetime coercion, an
external library capability): the input is trimmed; if DATE_RE finds an
embedded month-name pattern the fixed formats are tried on the matched
substring, falling back to fb on that substring; otherwise fb handles the
whole trimmed string. A fb failure gives none rather than an error. -/
def parse_date (fb : String → Option Date) (s : String) : Option Date :=
  match dateSearch (trimStr s) with
  | some m => (match tryFormats m with
    | some d => some d
    | none => fb m)
  | none => fb (trimStr s)

/-- One row of a transactions DataFrame handed to the risk module. A none
field models a missing value (NaN/NaT) in the corresponding column; a cell
that the float conversion would reject is likewise modelled as none in the
amount field. -/
structure Row where
  date : Option Date
  desc : Option String
  amount : Option ℚ
deriving DecidableEq

/-- A transactions DataFrame: which of the relevant columns exist, plus the
rows in source order (the post-normalization tables carry a range index, so
row labels coincide with positions). hasType records any further column only
so that the pandas emptiness test can be stated. -/
structure Table where
  hasDate : Bool
  hasDescription : Bool
  hasAmount : Bool
  hasType : Bool
  rows : List Row
deriving DecidableEq

/-- The pandas DataFrame.empty test: no rows or no columns at all. -/
def tableEmptyDF (t : Table) : Bool :=
  t.rows.isEmpty || (!t.hasDate && !t.hasDescription && !t.hasAmount && !t.hasType)

/-- The date of a row as the scanner sees it: none when the table has no
date column. -/
def getDate (t : Table) (r : Row) : Option Date :=
  if t.hasDate then r.date else none

/-- The amount of a row as the scanner sees it: none when the table has no
amount column. -/
def getAmount (t : Table) (r : Row) : Option ℚ :=
  if t.hasAmount then r.amount else none

/-- The lower-cased trimmed description key of a row: the empty string when
the table has no description column; Python str renders a missing value as
the text nan, which the source code inherits. -/
def rowDesc (t : Table) (r : Row) : String :=
  if t.hasDescription then
    toLowerStr (trimStr (match r.desc with | some s => s | none => "nan"))
  else ""

/-- The rows usable by the income estimator: both a date and an amount. -/
def datedAmountRows (t : Table) : List (Date × ℚ) :=
  t.rows.filterMap (fun r =>
    match getDate t r, getAmount t r with
    | some d, some a => some (d, a)
    | _, _ => none)

/-- Arithmetic mean of a list of rationals (zero on the empty list; callers
guard emptiness as the source does). -/
def qMean (l : List ℚ) : ℚ := l.sum / (l.length : ℚ)

/-- The per-month amount sums produced by resampling at month frequency:
one bucket for every calendar month from the earliest to the latest date
present, months without rows summing to zero. -/
def monthlySums (rows : List (Date × ℚ)) : List ℚ :=
  match rows.map (fun p => monthIdx p.1) with
  | [] => []
  | m :: ms =>
    let lo := ms.foldl min m
    let hi := ms.foldl max m
    (List.range (hi - lo + 1).toNat).map (fun k =>
      ((rows.filter (fun p => monthIdx p.1 = lo + (k : Int))).map (fun p => p.2)).sum)

/-- Model of compute_monthly_income in utils/risk.py: zero without both a
date and an amount column or without any dated amount; otherwise the mean of
the strictly positive per-month resampled sums; if no month is net positive,
the mean of the per-month resampled sums of the strictly positive amounts
alone; zero when there are no positive amounts either. -/
def compute_monthly_income (t : Table) : ℚ :=
  if t.hasDate && t.hasAmount then
    if (datedAmountRows t).isEmpty then 0
    else if ((monthlySums (datedAmountRows t)).filter (fun s => 0 < s)).isEmpty then
      if ((datedAmountRows t).filter (fun p => 0 < p.2)).isEmpty then 0
      else qMean (monthlySums ((datedAmountRows t).filter (fun p => 0 < p.2)))
    else qMean ((monthlySums (datedAmountRows t)).filter (fun s => 0 < s))
  else 0

/-- The amounts column with nulls dropped, as the scanner computes its
global statistics. -/
def amountsOf (t : Table) : List ℚ := t.rows.filterMap (fun r => getAmount t r)

/-- Mean of the non-null amounts. -/
def amtMean (t : Table) : ℚ := qMean (amountsOf t)

/-- Population variance (delta degrees of freedom zero) of the non-null
amounts; the standard deviation of the source is its square root, so the
positivity tests agree. -/
def amtVar (t : Table) : ℚ :=
  qMean ((amountsOf t).map (fun a => (a - amtMean t) ^ 2))

/-- The latest date of the table, none when every date is missing; pandas
max skips missing values. -/
def maxDate (t : Table) : Option Date :=
  (t.rows.filterMap (fun r => getDate t r)).foldl
    (fun acc d =>
      match acc with
      | none => some d
      | some m => if daysFromCivil m < daysFromCivil d then some d else some m)
    none

/-- The recent-payee collection: defined only when both a description and a
date column exist; when the maximum date exists, the lower-cased trimmed
descriptions of rows dated on or after the maximum date minus the lookback
months; otherwise the descriptions of every row. Missing descriptions are
dropped here (before the str cast), unlike in the per-row key. -/
def recentPayees (t : Table) (rm : Nat) : List String :=
  if t.hasDescription && t.hasDate then
    match maxDate t with
    | none => t.rows.filterMap (fun r => r.desc.map (fun s => toLowerStr (trimStr s)))
    | some mx =>
      let cutoff := subMonths mx rm
      (t.rows.filter (fun r =>
        match getDate t r with
        | some d => decide (dateLe cutoff d)
        | none => false)).filterMap (fun r => r.desc.map (fun s => toLowerStr (trimStr s)))
  else []

/-- Is there a run of four consecutive sorted dates spanning at most seven
days (the sliding window of the burst heuristic). -/
def existsWindow : List Date → Bool
  | a :: x :: y :: b :: rest =>
    (daysFromCivil b - daysFromCivil a ≤ 7) || existsWindow (x :: y :: b :: rest)
  | _ => false

/-- The rows sharing a description key (the payee group of that key). -/
def groupRows (t : Table) (key : String) : List Row :=
  t.rows.filter (fun r2 => rowDesc t r2 = key)

/-- The parseable dates of a payee group, sorted ascending. -/
def sortedGroupDates (t : Table) (key : String) : List Date :=
  List.insertionSort dateLe ((groupRows t key).filterMap (fun r => getDate t r))

/-- The suspicion reason codes of utils/risk.py. -/
inductive Reason
  | unaffordable
  | anomalous_amount
  | new_payee
  | freq_small_trans
deriving DecidableEq, Repr

/-- A produced flag: original row position, the converted amount, and the
reasons in the order the source appends them. The date, description and type
fields of the source dict are mere copies of the row and are omitted. -/
structure RiskFlag where
  index : Nat
  amount : ℚ
  reasons : List Reason
deriving DecidableEq, Repr

/-- The per-scan context: the table, the two thresholds, and the quantities
the scanner precomputes before iterating rows. -/
structure Ctx where
  t : Table
  thr : ℚ
  oz : ℚ
  income : ℚ
  meanAmt : ℚ
  varAmt : ℚ
  recents : List String

/-- Build the context exactly as detect_suspicious_transactions does before
its row loop. -/
def mkCtx (t : Table) (thr oz : ℚ) (rm : Nat) : Ctx :=
  ⟨t, thr, oz, compute_monthly_income t, amtMean t, amtVar t, recentPayees t rm⟩

/-- The unaffordability test of the row loop: positive estimated income, a
debit, and magnitude beyond the threshold fraction of the income. -/
def unaffCond (c : Ctx) (a : ℚ) : Prop :=
  0 < c.income ∧ a < 0 ∧ c.thr * c.income < |a|

instance (c : Ctx) (a : ℚ) : Decidable (unaffCond c a) := by
  unfold unaffCond; infer_instance

/-- The outlier test of the row loop. The source compares the absolute
z-score (deviation over the positive standard deviation) against the
threshold; squaring both sides under a positive variance gives the exact
same test in rational arithmetic, with a nonpositive threshold passing
unconditionally. -/
def anomCond (c : Ctx) (a : ℚ) : Prop :=
  0 < c.varAmt ∧ (c.oz ≤ 0 ∨ c.oz ^ 2 * c.varAmt ≤ (a - c.meanAmt) ^ 2)

instance (c : Ctx) (a : ℚ) : Decidable (anomCond c a) := by
  unfold anomCond; infer_instance

/-- The new-payee test of the row loop: a nonempty description key absent
from the recent collection, on a debit or on a credit larger than one fifth
of the income (zero when the income is unknown). -/
def newPayeeCond (c : Ctx) (r : Row) (a : ℚ) : Prop :=
  rowDesc c.t r ≠ "" ∧ rowDesc c.t r ∉ c.recents ∧
    (a < 0 ∨ (if 0 < c.income then c.income / 5 else 0) < |a|)

instance (c : Ctx) (r : Row) (a : ℚ) : Decidable (newPayeeCond c r a) := by
  unfold newPayeeCond; infer_instance

/-- The burst-frequency test of the row loop: a date column present, a
nonempty description key, at least four rows in the payee group, at least
four of them dated, and some window of four consecutive sorted dates within
seven days. -/
def freqCond (c : Ctx) (r : Row) : Prop :=
  c.t.hasDate = true ∧ rowDesc c.t r ≠ "" ∧
    4 ≤ (groupRows c.t (rowDesc c.t r)).length ∧
    4 ≤ (sortedGroupDates c.t (rowDesc c.t r)).length ∧
    existsWindow (sortedGroupDates c.t (rowDesc c.t r)) = true

instance (c : Ctx) (r : Row) : Decidable (freqCond c r) := by
  unfold freqCond; infer_instance

/-- The reasons collected for one row with a convertible amount, in the
order the source appends them; the break in the window loop makes the burst
reason appear at most once. -/
def rowReasons (c : Ctx) (r : Row) (a : ℚ) : List Reason :=
  (if unaffCond c a then [Reason.unaffordable] else []) ++
  (if anomCond c a then [Reason.anomalous_amount] else []) ++
  (if newPayeeCond c r a then [Reason.new_payee] else []) ++
  (if freqCond c r then [Reason.freq_small_trans] else [])

/-- The row loop: rows whose amount fails the float conversion are skipped;
a row with at least one reason becomes a flag carrying its position. -/
def buildFlags (c : Ctx) : Nat → List Row → List RiskFlag
  | _, [] => []
  | i, r :: rs =>
    match getAmount c.t r with
    | none => buildFlags c (i + 1) rs
    | some a =>
      if (rowReasons c r a).isEmpty then buildFlags c (i + 1) rs
      else ⟨i, a, rowReasons c r a⟩ :: buildFlags c (i + 1) rs

/-- The severity weight of one reason code. -/
def reasonWeight : Reason → Nat
  | Reason.unaffordable => 100
  | Reason.anomalous_amount => 50
  | Reason.new_payee => 20
  | Reason.freq_small_trans => 10

/-- severity_score of utils/risk.py (up to the sign the source uses to turn
the ascending sort into a descending one): the sum of the weights of the
reasons attached to a flag. -/
def severity_score (f : RiskFlag) : Nat := (f.reasons.map reasonWeight).sum

/-- Sort relation of the final sorted call: descending severity; the Python
sort is stable, as is insertion sort. -/
def sortRel (a b : RiskFlag) : Prop := severity_score b ≤ severity_score a

instance : DecidableRel sortRel := fun a b => by unfold sortRel; infer_instance

/-- The error raised by the scanner when a non-empty frame lacks an amount
column (a ValueError whose message asks for an amount column). -/
inductive ScanErr
  | missingAmountColumn
deriving DecidableEq, Repr

/-- Model of detect_suspicious_transactions in utils/risk.py: an empty frame
yields no flags; a non-empty frame without an amount column raises; a frame
whose amounts are all null yields no flags; otherwise the row loop runs and
the flags are sorted by descending severity, ties keeping row order. -/
def detect_suspicious_transactions (t : Table) (thr oz : ℚ) (rm : Nat) :
    Except ScanErr (List RiskFlag) :=
  if tableEmptyDF t then Except.ok []
  else if !t.hasAmount then Except.error ScanErr.missingAmountColumn
  else if (amountsOf t).isEmpty then Except.ok []
  else Except.ok (List.insertionSort sortRel (buildFlags (mkCtx t thr oz rm) 0 t.rows))

/-- The amount series of the outlier example in the spec: five amounts and
no other column. -/
def c2Tbl : Table :=
  ⟨false, false, true, false,
   [⟨none, none, some (-10)⟩, ⟨none, none, some (-12)⟩, ⟨none, none, some (-9)⟩,
    ⟨none, none, some (-11)⟩, ⟨none, none, some (-500)⟩]⟩

/-- The row of c2Tbl carrying the amount minus five hundred. -/
def c2OutlierRow : Row := ⟨none, none, some (-500)⟩

/-- A table whose estimated monthly income is exactly one thousand (one
positive month) with one debit of six hundred and one of four hundred. -/
def c4Tbl : Table :=
  ⟨true, true, true, false,
   [⟨some ⟨2025, 1, 15⟩, some "salary", some 1000⟩,
    ⟨some ⟨2025, 2, 10⟩, some "rent", some (-600)⟩,
    ⟨some ⟨2025, 2, 12⟩, some "shop", some (-400)⟩]⟩

/-- A small credit row used to build the severity-ordering table. -/
def c6CreditRow (i : Nat) : Row := ⟨some ⟨2025, 1, 5⟩, some ("c" ++ toString i), some 10⟩

/-- Severity-ordering table: fifteen small credits under distinct payees, an
old-dated debit that is only a new payee (score twenty, row one), and a late
large debit that is both unaffordable and an outlier (score one hundred
fifty, row sixteen). -/
def c6Tbl : Table :=
  ⟨true, true, true, false,
   [c6CreditRow 1,
    ⟨some ⟨2024, 6, 10⟩, some "oldshop", some (-50)⟩] ++
   (List.range 14).map (fun i => c6CreditRow (i + 2)) ++
   [⟨some ⟨2025, 1, 20⟩, some "bigbuy", some (-800)⟩]⟩

/-- Income example with a gap month in the credit range: credits only in
January and March of 2025, every month net negative. -/
def t5Tbl : Table :=
  ⟨true, false, true, false,
   [⟨some ⟨2025, 1, 5⟩, none, some 10⟩, ⟨some ⟨2025, 1, 6⟩, none, some (-50)⟩,
    ⟨some ⟨2025, 2, 5⟩, none, some (-50)⟩, ⟨some ⟨2025, 3, 5⟩, none, some 10⟩,
    ⟨some ⟨2025, 3, 6⟩, none, some (-50)⟩]⟩

/-- Income example of the claim: three months, two of them net positive. -/
def t5Good : Table :=
  ⟨true, false, true, false,
   [⟨some ⟨2025, 1, 5⟩, none, some 100⟩, ⟨some ⟨2025, 2, 5⟩, none, some (-50)⟩,
    ⟨some ⟨2025, 3, 5⟩, none, some 60⟩]⟩

/-- Four rows on four consecutive days whose shared description is only
whitespace, so its trimmed key is empty. -/
def t7Bad : Table :=
  ⟨true, true, true, false,
   [⟨some ⟨2025, 3, 1⟩, some "  ", some (-5)⟩, ⟨some ⟨2025, 3, 2⟩, some "  ", some (-5)⟩,
    ⟨some ⟨2025, 3, 3⟩, some "  ", some (-5)⟩, ⟨some ⟨2025, 3, 4⟩, some "  ", some (-5)⟩]⟩

/-- The first row of t7Bad. -/
def t7BadRow : Row := ⟨some ⟨2025, 3, 1⟩, some "  ", some (-5)⟩

/-- Four rows on four consecutive days sharing the payee key shop. -/
def t7Fire : Table :=
  ⟨true, true, true, false,
   [⟨some ⟨2025, 3, 1⟩, some "shop", some (-5)⟩, ⟨some ⟨2025, 3, 2⟩, some "shop", some (-5)⟩,
    ⟨some ⟨2025, 3, 3⟩, some "shop", some (-5)⟩, ⟨some ⟨2025, 3, 4⟩, some "shop", some (-5)⟩]⟩

/-- The first row of t7Fire. -/
def t7FireRow : Row := ⟨some ⟨2025, 3, 1⟩, some "shop", some (-5)⟩

/-- An empty frame with no columns at all (pandas calls it empty). -/
def emptyNoColsTbl : Table := ⟨false, false, false, false, []⟩

/-- A non-empty frame lacking an amount column. -/
def noAmtTbl : Table :=
  ⟨true, true, false, false, [⟨some ⟨2025, 1, 1⟩, some "x", none⟩]⟩

/-- A non-empty frame whose amount column is entirely null. -/
def nullAmtTbl : Table := ⟨false, false, true, false, [⟨none, none, none⟩]⟩

/-- The free-form fallback parser used by the witness of the date claim: the
behaviour the pandas coercion exhibits on the three claim inputs that reach
it, failing elsewhere. -/
def fbWitness : String → Option Date := fun s =>
  if s = "16 November 2025" ∨ s = "16-11-2025" ∨ s = "2025-11-16" then
    some ⟨2025, 11, 16⟩
  else none

/-- The relation a stable descending-severity sort establishes on a flag
list whose original row positions increase: later entries have strictly
smaller severity, or equal severity and a later row. -/
def stableRel (a b : RiskFlag) : Prop :=
  severity_score b < severity_score a ∨
    (severity_score a = severity_score b ∧ a.index < b.index)

theorem severity_eq_weighted_counts (l : List Reason) :
    (l.map reasonWeight).sum =
      100 * l.count Reason.unaffordable + 50 * l.count Reason.anomalous_amount +
      20 * l.count Reason.new_payee + 10 * l.count Reason.freq_small_trans := by
  induction l with
  | nil => rfl
  | cons r l ih =>
    cases r <;> simp [List.count_cons, reasonWeight, ih] <;> ring

theorem rowReasons_count_le_one (c : Ctx) (r : Row) (a : ℚ) (rsn : Reason) :
    (rowReasons c r a).count rsn ≤ 1 := by
  unfold rowReasons
  cases rsn <;> (split <;> split <;> split <;> split <;> simp [List.count_cons, List.count_append])

theorem mem_rowReasons_unaff (c : Ctx) (r : Row) (a : ℚ) :
    Reason.unaffordable ∈ rowReasons c r a ↔ unaffCond c a := by
  unfold rowReasons
  split <;> split <;> split <;> split <;> simp_all

theorem mem_rowReasons_anom (c : Ctx) (r : Row) (a : ℚ) :
    Reason.anomalous_amount ∈ rowReasons c r a ↔ anomCond c a := by
  unfold rowReasons
  split <;> split <;> split <;> split <;> simp_all

theorem mem_rowReasons_freq (c : Ctx) (r : Row) (a : ℚ) :
    Reason.freq_small_trans ∈ rowReasons c r a ↔ freqCond c r := by
  unfold rowReasons
  split <;> split <;> split <;> split <;> simp_all

theorem buildFlags_mem_shape (c : Ctx) :
    ∀ (i : Nat) (l : List Row) (f : RiskFlag), f ∈ buildFlags c i l →
      ∃ r a, r ∈ l ∧ getAmount c.t r = some a ∧ f.amount = a ∧
        f.reasons = rowReasons c r a := by
  intro i l
  induction l generalizing i with
  | nil => intro f h; simp [buildFlags] at h
  | cons r rs ih =>
    intro f h
    cases hg : getAmount c.t r with
    | none =>
      simp only [buildFlags, hg] at h
      obtain ⟨r', a, hr, hrest⟩ := ih (i + 1) f h
      exact ⟨r', a, List.mem_cons_of_mem _ hr, hrest⟩
    | some a =>
      simp only [buildFlags, hg] at h
      split at h
      · obtain ⟨r', a', hr, hrest⟩ := ih (i + 1) f h
        exact ⟨r', a', List.mem_cons_of_mem _ hr, hrest⟩
      · rcases List.mem_cons.mp h with rfl | h'
        · exact ⟨r, a, List.mem_cons_self r rs, hg, rfl, rfl⟩
        · obtain ⟨r', a', hr, hrest⟩ := ih (i + 1) f h'
          exact ⟨r', a', List.mem_cons_of_mem _ hr, hrest⟩

theorem buildFlags_index_ge (c : Ctx) :
    ∀ (i : Nat) (l : List Row) (f : RiskFlag), f ∈ buildFlags c i l → i ≤ f.index := by
  intro i l
  induction l generalizing i with
  | nil => intro f h; simp [buildFlags] at h
  | cons r rs ih =>
    intro f h
    cases hg : getAmount c.t r with
    | none =>
      simp only [buildFlags, hg] at h
      exact le_trans (Nat.le_succ i) (ih (i + 1) f h)
    | some a =>
      simp only [buildFlags, hg] at h
      split at h
      · exact le_trans (Nat.le_succ i) (ih (i + 1) f h)
      · rcases List.mem_cons.mp h with rfl | h'
        · exact le_refl i
        · exact le_trans (Nat.le_succ i) (ih (i + 1) f h')

theorem buildFlags_pairwise (c : Ctx) :
    ∀ (i : Nat) (l : List Row),
      (buildFlags c i l).Pairwise (fun a b => a.index < b.index) := by
  intro i l
  induction l generalizing i with
  | nil => simp [buildFlags]
  | cons r rs ih =>
    cases hg : getAmount c.t r with
    | none => simp only [buildFlags, hg]; exact ih (i + 1)
    | some a =>
      simp only [buildFlags, hg]
      split
      · exact ih (i + 1)
      · refine List.Pairwise.cons ?_ (ih (i + 1))
        intro g hg'
        exact lt_of_lt_of_le (Nat.lt_succ_self i) (buildFlags_index_ge c (i + 1) rs g hg')

theorem orderedInsert_stable (x : RiskFlag) :
    ∀ (l : List RiskFlag), l.Pairwise stableRel → (∀ y ∈ l, x.index < y.index) →
      (List.orderedInsert sortRel x l).Pairwise stableRel := by
  intro l
  induction l with
  | nil => intro _ _; simp [List.orderedInsert]
  | cons y ys ih =>
    intro hp hx
    obtain ⟨hy, hys⟩ := List.pairwise_cons.mp hp
    rw [List.orderedInsert]
    split
    · rename_i h
      refine List.Pairwise.cons ?_ hp
      intro z hz
      rcases List.mem_cons.mp hz with rfl | hz'
      · rcases lt_or_eq_of_le h with hlt | heq
        · exact Or.inl hlt
        · exact Or.inr ⟨heq.symm, hx z (List.mem_cons_self z ys)⟩
      · rcases hy z hz' with h1 | h2
        · exact Or.inl (lt_of_lt_of_le h1 h)
        · rcases lt_or_eq_of_le h with hlt | heq
          · exact Or.inl (lt_of_le_of_lt (le_of_eq h2.1.symm) hlt)
          · exact Or.inr ⟨by rw [← heq, h2.1], hx z (List.mem_cons_of_mem _ hz')⟩
    · rename_i h
      have hxy : severity_score x < severity_score y := by
        unfold sortRel at h; omega
      refine List.Pairwise.cons ?_ (ih hys (fun z hz => hx z (List.mem_cons_of_mem _ hz)))
      intro z hz
      rcases (List.mem_orderedInsert sortRel).mp hz with rfl | hz'
      · exact Or.inl hxy
      · exact hy z hz'

theorem insertionSort_stable :
    ∀ (l : List RiskFlag), l.Pairwise (fun a b => a.index < b.index) →
      (List.insertionSort sortRel l).Pairwise stableRel := by
  intro l
  induction l with
  | nil => intro _; simp [List.insertionSort]
  | cons x xs ih =>
    intro hp
    obtain ⟨hx, hxs⟩ := List.pairwise_cons.mp hp
    rw [List.insertionSort]
    refine orderedInsert_stable x _ (ih hxs) ?_
    intro y hy
    exact hx y ((List.mem_insertionSort sortRel).mp hy)

theorem scan_ok_cases (t : Table) (thr oz : ℚ) (rm : Nat) (fl : List RiskFlag)
    (h : detect_suspicious_transactions t thr oz rm = Except.ok fl) :
    fl = [] ∨
      fl = List.insertionSort sortRel (buildFlags (mkCtx t thr oz rm) 0 t.rows) := by
  unfold detect_suspicious_transactions at h
  split at h
  · injection h with h; exact Or.inl h.symm
  · split at h
    · cases h
    · split at h
      · injection h with h; exact Or.inl h.symm
      · injection h with h; exact Or.inr h.symm

theorem sq_test_iff_absZ (dev v z : ℚ) (hv : 0 < v) :
    (z ≤ 0 ∨ z ^ 2 * v ≤ dev ^ 2) ↔
      (z : ℝ) ≤ |(dev : ℝ)| / Real.sqrt (v : ℝ) := by
  have hv' : (0 : ℝ) < (v : ℝ) := by exact_mod_cast hv
  have hs : 0 < Real.sqrt (v : ℝ) := Real.sqrt_pos.mpr hv'
  constructor
  · rintro (hz | hsq)
    · have hz' : (z : ℝ) ≤ 0 := by exact_mod_cast hz
      exact le_trans hz' (div_nonneg (abs_nonneg _) hs.le)
    · rw [le_div_iff₀ hs]
      by_cases hz : (z : ℝ) ≤ 0
      · exact le_trans (mul_nonpos_of_nonpos_of_nonneg hz hs.le) (abs_nonneg _)
      · push_neg at hz
        have h1 : ((z : ℝ) * Real.sqrt (v : ℝ)) ^ 2 ≤ |(dev : ℝ)| ^ 2 := by
          rw [mul_pow, Real.sq_sqrt hv'.le, sq_abs]
          exact_mod_cast hsq
        nlinarith [abs_nonneg (dev : ℝ), mul_pos hz hs]
  · intro h
    by_cases hz : z ≤ 0
    · exact Or.inl hz
    · push_neg at hz
      right
      have hz' : (0 : ℝ) < (z : ℝ) := by exact_mod_cast hz
      rw [le_div_iff₀ hs] at h
      have h2 : ((z : ℝ) * Real.sqrt (v : ℝ)) ^ 2 ≤ |(dev : ℝ)| ^ 2 :=
        pow_le_pow_left₀ (by positivity) h 2
      rw [mul_pow, Real.sq_sqrt hv'.le, sq_abs] at h2
      exact_mod_cast h2

/-- Claim C1, counterexample: the spec round-trip list expects the parse of
the text Rs. -500 to be minus five hundred, but the dot of Rs. survives the
character cleaning, the cleaned text is dot-minus-500, and the float
conversion rejects it, so the parse is null. -/
theorem claim_C1_counterexample :
    ¬ clean_amount (some "Rs. -500") = some (-500) := by
  with_unfolding_all decide

/-- Claim C1 (amended): AmountParser.parse satisfies the round-trip examples
with the Rs. case corrected: the rupee-symbol input parses to 1234.50, the
input Rs. -500 parses to null (the dot of Rs. makes the cleaned numeral
unparseable), and the empty and double-hyphen inputs parse to null. -/
theorem claim_C1_roundtrip :
    clean_amount (some "₹1,234.50") = some (2469 / 2) ∧
    clean_amount (some "Rs. -500") = none ∧
    clean_amount (some "") = none ∧
    clean_amount (some "--") = none := by
  refine ⟨?_, ?_, ?_, ?_⟩ <;> with_unfolding_all rfl

/-- Claim C2, counterexample: on the amount series of the spec example the
population z-score of the minus-five-hundred row is just under two, so with
threshold three the anomalous-amount heuristic does not fire on it and the
scan returns no flags at all, contrary to the claim that exactly that row is
flagged. -/
theorem claim_C2_counterexample :
    detect_suspicious_transactions c2Tbl (1 / 2) 3 6 = Except.ok [] ∧
    Reason.anomalous_amount ∉ rowReasons (mkCtx c2Tbl (1 / 2) 3 6) c2OutlierRow (-500) := by
  exact ⟨by with_unfolding_all rfl, by with_unfolding_all decide⟩

/-- Claim C2 (amended): the anomalous-amount heuristic fires on a row with
convertible amount exactly when the population variance of the non-null
amounts is strictly positive and the absolute z-score of the signed amount
(deviation from the mean over the population standard deviation) is at
least the threshold; in particular, on the series of the example no row is
flagged at threshold three, since five samples bound the population z-score
by two. -/
theorem claim_C2_anomalous :
    (∀ (t : Table) (thr oz : ℚ) (rm : Nat) (r : Row) (a : ℚ),
      Reason.anomalous_amount ∈ rowReasons (mkCtx t thr oz rm) r a ↔
        (0 < amtVar t ∧
          (oz : ℝ) ≤ |((a - amtMean t : ℚ) : ℝ)| / Real.sqrt ((amtVar t : ℚ) : ℝ))) ∧
    detect_suspicious_transactions c2Tbl (1 / 2) 3 6 = Except.ok [] := by
  refine ⟨?_, by with_unfolding_all rfl⟩
  intro t thr oz rm r a
  rw [mem_rowReasons_anom]
  unfold anomCond mkCtx
  dsimp only
  exact and_congr_right fun hv => sq_test_iff_absZ (a - amtMean t) (amtVar t) oz hv

/-- Claim C4: the unaffordable heuristic fires on a row with convertible
amount exactly when the amount is negative, the estimated monthly income is
positive, and the magnitude exceeds the threshold fraction of that income;
in particular, on a table whose estimated income is one thousand, at
threshold one half the six-hundred debit is flagged unaffordable and the
four-hundred debit is not. -/
theorem claim_C4_unaffordable :
    (∀ (t : Table) (thr oz : ℚ) (rm : Nat) (r : Row) (a : ℚ),
      Reason.unaffordable ∈ rowReasons (mkCtx t thr oz rm) r a ↔
        (a < 0 ∧ 0 < compute_monthly_income t ∧
          thr * compute_monthly_income t < |a|)) ∧
    compute_monthly_income c4Tbl = 1000 ∧
    detect_suspicious_transactions c4Tbl (1 / 2) 3 6 =
      Except.ok [⟨1, -600, [Reason.unaffordable]⟩] := by
  refine ⟨?_, by with_unfolding_all rfl, by with_unfolding_all rfl⟩
  intro t thr oz rm r a
  rw [mem_rowReasons_unaff]
  unfold unaffCond mkCtx
  dsimp only
  tauto

/-- Claim C6: every flag of a successful scan has severity equal to one
hundred per unaffordable reason plus fifty per anomalous-amount plus twenty
per new-payee plus ten per burst reason, each heuristic contributing at most
once; the returned sequence is sorted by strictly descending severity with
ties in original row order (the stable sort); in particular, on the example
table the flag of severity one hundred fifty (row sixteen) precedes the flag
of severity twenty (row one). -/
theorem claim_C6_severity :
    (∀ (t : Table) (thr oz : ℚ) (rm : Nat) (fl : List RiskFlag) (f : RiskFlag),
      detect_suspicious_transactions t thr oz rm = Except.ok fl → f ∈ fl →
        severity_score f =
          100 * f.reasons.count Reason.unaffordable +
          50 * f.reasons.count Reason.anomalous_amount +
          20 * f.reasons.count Reason.new_payee +
          10 * f.reasons.count Reason.freq_small_trans ∧
        ∀ rsn, f.reasons.count rsn ≤ 1) ∧
    (∀ (t : Table) (thr oz : ℚ) (rm : Nat) (fl : List RiskFlag),
      detect_suspicious_transactions t thr oz rm = Except.ok fl →
        fl.Pairwise stableRel) ∧
    detect_suspicious_transactions c6Tbl (1 / 2) 3 6 =
      Except.ok [⟨16, -800, [Reason.unaffordable, Reason.anomalous_amount]⟩,
        ⟨1, -50, [Reason.new_payee]⟩] ∧
    severity_score ⟨16, -800, [Reason.unaffordable, Reason.anomalous_amount]⟩ = 150 ∧
    severity_score ⟨1, -50, [Reason.new_payee]⟩ = 20 := by
  refine ⟨?_, ?_, by with_unfolding_all rfl, rfl, rfl⟩
  · intro t thr oz rm fl f hok hf
    rcases scan_ok_cases t thr oz rm fl hok with rfl | rfl
    · cases hf
    · have hf' := (List.mem_insertionSort sortRel).mp hf
      obtain ⟨r, a, _, _, _, hre⟩ := buildFlags_mem_shape _ 0 _ f hf'
      constructor
      · exact severity_eq_weighted_counts f.reasons
      · intro rsn
        rw [hre]
        exact rowReasons_count_le_one _ _ _ rsn
  · intro t thr oz rm fl hok
    rcases scan_ok_cases t thr oz rm fl hok with rfl | rfl
    · exact List.Pairwise.nil
    · exact insertionSort_stable _ (buildFlags_pairwise _ 0 _)

/-- Witness for claim C6 at the example table: the severity formula applied
to the top flag, and stability of the returned pair. -/
theorem claim_C6_severity_witness :
    (severity_score ⟨16, -800, [Reason.unaffordable, Reason.anomalous_amount]⟩ =
      100 * List.count Reason.unaffordable [Reason.unaffordable, Reason.anomalous_amount] +
      50 * List.count Reason.anomalous_amount [Reason.unaffordable, Reason.anomalous_amount] +
      20 * List.count Reason.new_payee [Reason.unaffordable, Reason.anomalous_amount] +
      10 * List.count Reason.freq_small_trans [Reason.unaffordable, Reason.anomalous_amount]) ∧
    List.Pairwise stableRel
      [(⟨16, -800, [Reason.unaffordable, Reason.anomalous_amount]⟩ : RiskFlag),
       ⟨1, -50, [Reason.new_payee]⟩] := by
  constructor
  · exact (claim_C6_severity.1 c6Tbl (1 / 2) 3 6 _ _ claim_C6_severity.2.2.1
      (List.mem_cons_self _ _)).1
  · exact claim_C6_severity.2.1 c6Tbl (1 / 2) 3 6 _ claim_C6_severity.2.2.1

/-- Claim C8: scanning an empty frame returns no flags without raising; a
non-empty frame lacking an amount column fails with the missing-amount
error; a frame with an amount column whose amounts are all null returns no
flags. -/
theorem claim_C8_preconditions :
    (∀ (thr oz : ℚ) (rm : Nat) (t : Table), t.rows = [] →
      detect_suspicious_transactions t thr oz rm = Except.ok []) ∧
    (∀ (thr oz : ℚ) (rm : Nat) (t : Table),
      tableEmptyDF t = false → t.hasAmount = false →
      detect_suspicious_transactions t thr oz rm =
        Except.error ScanErr.missingAmountColumn) ∧
    (∀ (thr oz : ℚ) (rm : Nat) (t : Table), t.hasAmount = true →
      (∀ r ∈ t.rows, getAmount t r = none) →
      detect_suspicious_transactions t thr oz rm = Except.ok []) := by
  refine ⟨?_, ?_, ?_⟩
  · intro thr oz rm t h
    unfold detect_suspicious_transactions
    rw [if_pos]
    unfold tableEmptyDF
    rw [h]
    rfl
  · intro thr oz rm t he ha
    unfold detect_suspicious_transactions
    rw [if_neg, if_pos]
    · rw [ha]; rfl
    · rw [he]; exact Bool.false_ne_true
  · intro thr oz rm t ha h
    have hA : amountsOf t = [] := by
      unfold amountsOf
      exact List.filterMap_eq_nil_iff.mpr h
    unfold detect_suspicious_transactions
    by_cases hemp : tableEmptyDF t = true
    · rw [if_pos hemp]
    · rw [if_neg hemp, if_neg (by rw [ha]; simp), if_pos (by rw [hA]; rfl)]

/-- Witness for claim C8 at the three concrete frames. -/
theorem claim_C8_preconditions_witness :
    detect_suspicious_transactions emptyNoColsTbl (1 / 2) 3 6 = Except.ok [] ∧
    detect_suspicious_transactions noAmtTbl (1 / 2) 3 6 =
      Except.error ScanErr.missingAmountColumn ∧
    detect_suspicious_transactions nullAmtTbl (1 / 2) 3 6 = Except.ok [] :=
  ⟨claim_C8_preconditions.1 (1 / 2) 3 6 emptyNoColsTbl rfl,
   claim_C8_preconditions.2.1 (1 / 2) 3 6 noAmtTbl rfl rfl,
   claim_C8_preconditions.2.2 (1 / 2) 3 6 nullAmtTbl rfl (by decide)⟩

/-- Claim C10: the scanner tests emptiness before its amount-column
precondition, so every empty frame, with or without an amount column, yields
the empty flag sequence, and the missing-column failure is reachable only
for non-empty frames. -/
theorem claim_C10_empty_before_column :
    (∀ (thr oz : ℚ) (rm : Nat) (t : Table), tableEmptyDF t = true →
      detect_suspicious_transactions t thr oz rm = Except.ok []) ∧
    (∀ (thr oz : ℚ) (rm : Nat) (t : Table) (e : ScanErr),
      detect_suspicious_transactions t thr oz rm = Except.error e →
      tableEmptyDF t = false) := by
  constructor
  · intro thr oz rm t h
    unfold detect_suspicious_transactions
    rw [if_pos h]
  · intro thr oz rm t e h
    cases hb : tableEmptyDF t with
    | false => rfl
    | true =>
      unfold detect_suspicious_transactions at h
      rw [if_pos hb] at h
      cases h

/-- Witness for claim C10: the empty frame without any column scans to the
empty sequence, and a frame the scanner rejects is indeed non-empty. -/
theorem claim_C10_witness :
    detect_suspicious_transactions emptyNoColsTbl (1 / 2) 3 6 = Except.ok [] ∧
    tableEmptyDF noAmtTbl = false :=
  ⟨claim_C10_empty_before_column.1 (1 / 2) 3 6 emptyNoColsTbl rfl,
   claim_C10_empty_before_column.2 (1 / 2) 3 6 noAmtTbl
     ScanErr.missingAmountColumn (by with_unfolding_all rfl)⟩

/-- Claim C3, counterexample: the strict sign invariant fails on the final
table. A credit-typed row whose cell parses to zero keeps amount zero, which
is not strictly positive; and a type containing both dr and cr is forced
negative by the debit branch, although it contains cr. -/
theorem claim_C3_counterexample :
    (finalizeAmounts [⟨"Credit", some "0"⟩] = [("Credit", 0)] ∧
      typeHasCreditCue "Credit" = true ∧ ¬ (0 : ℚ) > 0) ∧
    (finalizeAmounts [⟨"dr cr", some "5"⟩] = [("dr cr", -5)] ∧
      typeHasCreditCue "dr cr" = true ∧ ¬ (-5 : ℚ) > 0) := by
  refine ⟨⟨by with_unfolding_all rfl, by with_unfolding_all rfl, by norm_num⟩,
          ⟨by with_unfolding_all rfl, by with_unfolding_all rfl, by norm_num⟩⟩

/-- Claim C3 (amended): in the final table, a row whose type carries a debit
cue (contains debit or dr case-insensitively) has amount at most zero, and a
row whose type carries a credit cue but no debit cue has amount at least
zero (strict whenever the parsed magnitude is nonzero, which the zero-amount
counterexample forbids in general); the type cues take precedence over the
cr and dr suffix cues of the raw amount text, which take precedence over the
parsed sign. -/
theorem claim_C3_sign_invariant :
    (∀ (rows : List RawTxn) (p : String × ℚ), p ∈ finalizeAmounts rows →
      (typeHasDebitCue p.1 = true → p.2 ≤ 0) ∧
      (typeHasDebitCue p.1 = false → typeHasCreditCue p.1 = true → 0 ≤ p.2)) ∧
    (∀ (typ : String) (raw : Option String) (amt : ℚ),
      typeHasDebitCue typ = true →
        normalize_amount typ raw (some amt) = some (-|amt|)) ∧
    (∀ (typ : String) (raw : Option String) (amt : ℚ),
      typeHasDebitCue typ = false → typeHasCreditCue typ = true →
        normalize_amount typ raw (some amt) = some |amt|) ∧
    (∀ (typ : String) (raw : Option String) (amt : ℚ),
      typeHasDebitCue typ = false → typeHasCreditCue typ = false →
        rawHasCrCue raw = true → normalize_amount typ raw (some amt) = some |amt|) ∧
    (∀ (typ : String) (raw : Option String) (amt : ℚ),
      typeHasDebitCue typ = false → typeHasCreditCue typ = false →
        rawHasCrCue raw = false → rawHasDrCue raw = true →
        normalize_amount typ raw (some amt) = some (-|amt|)) ∧
    (∀ (typ : String) (raw : Option String) (amt : ℚ),
      typeHasDebitCue typ = false → typeHasCreditCue typ = false →
        rawHasCrCue raw = false → rawHasDrCue raw = false →
        normalize_amount typ raw (some amt) = some amt) := by
  refine ⟨?_, ?_, ?_, ?_, ?_, ?_⟩
  · intro rows p hp
    obtain ⟨r, hr, hmap⟩ := List.mem_filterMap.mp hp
    cases hc : clean_amount r.amount_raw with
    | none => rw [hc] at hmap; cases hmap
    | some amt =>
      rw [hc] at hmap
      simp only [normalize_amount] at hmap
      split at hmap
      · rename_i hdeb
        simp only [Option.map_some'] at hmap
        cases hmap
        constructor
        · intro _
          exact neg_nonpos.mpr (abs_nonneg amt)
        · intro hfalse _
          rw [hdeb] at hfalse
          cases hfalse
      · split at hmap
        · rename_i hdeb hcred
          simp only [Option.map_some'] at hmap
          cases hmap
          constructor
          · intro htrue
            simp only at htrue
            rw [htrue] at hdeb
            cases hdeb rfl
          · intro _ _
            exact abs_nonneg amt
        · rename_i hdeb hcred
          split at hmap
          · simp only [Option.map_some'] at hmap
            cases hmap
            constructor
            · intro htrue
              simp only at htrue
              rw [htrue] at hdeb
              cases hdeb rfl
            · intro _ hfalse
              simp only at hfalse
              rw [hfalse] at hcred
              cases hcred rfl
          · split at hmap
            · simp only [Option.map_some'] at hmap
              cases hmap
              constructor
              · intro htrue
                simp only at htrue
                rw [htrue] at hdeb
                cases hdeb rfl
              · intro _ hfalse
                simp only at hfalse
                rw [hfalse] at hcred
                cases hcred rfl
            · simp only [Option.map_some'] at hmap
              cases hmap
              constructor
              · intro htrue
                simp only at htrue
                rw [htrue] at hdeb
                cases hdeb rfl
              · intro _ hfalse
                simp only at hfalse
                rw [hfalse] at hcred
                cases hcred rfl
  · intro typ raw amt h
    simp only [normalize_amount]
    rw [if_pos h]
  · intro typ raw amt h1 h2
    simp only [normalize_amount]
    rw [if_neg (by rw [h1]; exact Bool.false_ne_true), if_pos h2]
  · intro typ raw amt h1 h2 h3
    simp only [normalize_amount]
    rw [if_neg (by rw [h1]; exact Bool.false_ne_true),
        if_neg (by rw [h2]; exact Bool.false_ne_true), if_pos h3]
  · intro typ raw amt h1 h2 h3 h4
    simp only [normalize_amount]
    rw [if_neg (by rw [h1]; exact Bool.false_ne_true),
        if_neg (by rw [h2]; exact Bool.false_ne_true),
        if_neg (by rw [h3]; exact Bool.false_ne_true), if_pos h4]
  · intro typ raw amt h1 h2 h3 h4
    simp only [normalize_amount]
    rw [if_neg (by rw [h1]; exact Bool.false_ne_true),
        if_neg (by rw [h2]; exact Bool.false_ne_true),
        if_neg (by rw [h3]; exact Bool.false_ne_true),
        if_neg (by rw [h4]; exact Bool.false_ne_true)]

/-- Witness for claim C3 at two concrete rows: a debit-typed row lands at or
below zero and a credit-typed row at or above zero. -/
theorem claim_C3_sign_invariant_witness :
    ((-5 : ℚ) ≤ 0) ∧ ((0 : ℚ) ≤ 3) := by
  constructor
  · exact (claim_C3_sign_invariant.1 [⟨"Debit", some "5"⟩] ("Debit", -5)
      (by with_unfolding_all decide)).1 (by with_unfolding_all rfl)
  · exact (claim_C3_sign_invariant.1 [⟨"Credit", some "3"⟩] ("Credit", 3)
      (by with_unfolding_all decide)).2 (by with_unfolding_all rfl) (by with_unfolding_all rfl)

/-- Claim C5, counterexample: on a table whose credits sit only in January
and March (every month net negative), the fallback resamples the credit
rows over their whole date range, so the gap month February contributes a
zero bucket and the income is twenty thirds, not the mean ten of the two
credit-bearing buckets the claim describes. -/
theorem claim_C5_counterexample :
    compute_monthly_income t5Tbl = 20 / 3 ∧ (20 / 3 : ℚ) ≠ 10 := by
  exact ⟨by with_unfolding_all rfl, by norm_num⟩

/-- Claim C5 (amended): the estimator groups rows having both date and
amount into calendar-month buckets and returns the mean of the strictly
positive bucket sums when one exists; otherwise it resamples the rows with
strictly positive amount over their whole month range (months without a
positive amount contributing zero) and returns the mean of those sums when
any positive amount exists; in particular, on a three-month table with two
net-positive months the estimate is the mean of the two positive sums. -/
theorem claim_C5_income :
    (∀ t : Table, t.hasDate = true → t.hasAmount = true →
      (monthlySums (datedAmountRows t)).filter (fun s => 0 < s) ≠ [] →
      compute_monthly_income t =
        qMean ((monthlySums (datedAmountRows t)).filter (fun s => 0 < s))) ∧
    (∀ t : Table, t.hasDate = true → t.hasAmount = true →
      datedAmountRows t ≠ [] →
      (monthlySums (datedAmountRows t)).filter (fun s => 0 < s) = [] →
      (datedAmountRows t).filter (fun p => 0 < p.2) ≠ [] →
      compute_monthly_income t =
        qMean (monthlySums ((datedAmountRows t).filter (fun p => 0 < p.2)))) ∧
    compute_monthly_income t5Good = 80 ∧
    monthlySums (datedAmountRows t5Good) = [100, -50, 60] ∧
    (80 : ℚ) = (100 + 60) / 2 := by
  refine ⟨?_, ?_, by with_unfolding_all rfl, by with_unfolding_all rfl, by norm_num⟩
  · intro t hd ha hpos
    have hrows : (datedAmountRows t).isEmpty = false := by
      cases hE : datedAmountRows t with
      | nil =>
        exact absurd (show (monthlySums (datedAmountRows t)).filter (fun s => 0 < s) = []
          by rw [hE]; rfl) hpos
      | cons x xs => rfl
    have hpos' : ((monthlySums (datedAmountRows t)).filter (fun s => 0 < s)).isEmpty
        = false := by
      cases hE : (monthlySums (datedAmountRows t)).filter (fun s => 0 < s) with
      | nil => exact absurd hE hpos
      | cons x xs => rfl
    unfold compute_monthly_income
    simp only [hd, ha, Bool.and_self, eq_self_iff_true, if_true, hrows, hpos',
      Bool.false_eq_true, if_false]
  · intro t hd ha hne hpos hcred
    have hne' : (datedAmountRows t).isEmpty = false := by
      cases hE : datedAmountRows t with
      | nil => exact absurd hE hne
      | cons x xs => rfl
    have hpos' : ((monthlySums (datedAmountRows t)).filter (fun s => 0 < s)).isEmpty
        = true := by rw [hpos]; rfl
    have hcred' : ((datedAmountRows t).filter (fun p => 0 < p.2)).isEmpty = false := by
      cases hE : (datedAmountRows t).filter (fun p => 0 < p.2) with
      | nil => exact absurd hE hcred
      | cons x xs => rfl
    unfold compute_monthly_income
    simp only [hd, ha, Bool.and_self, eq_self_iff_true, if_true, hne', hpos', hcred',
      Bool.false_eq_true, if_false]

/-- Witness for claim C5: the primary path applied to the three-month
example table. -/
theorem claim_C5_income_witness :
    compute_monthly_income t5Good =
      qMean ((monthlySums (datedAmountRows t5Good)).filter (fun s => 0 < s)) :=
  claim_C5_income.1 t5Good rfl rfl (by with_unfolding_all decide)

/-- Claim C7, counterexample: four rows on four consecutive days share the
whitespace description, whose trimmed key is empty; the conditions of the
claim hold (group of four, four dated rows, a window within seven days),
yet the burst heuristic does not fire on the first row and the scan flags
nothing, because the source requires a non-empty description. -/
theorem claim_C7_counterexample :
    4 ≤ (groupRows t7Bad (rowDesc t7Bad t7BadRow)).length ∧
    4 ≤ (sortedGroupDates t7Bad (rowDesc t7Bad t7BadRow)).length ∧
    existsWindow (sortedGroupDates t7Bad (rowDesc t7Bad t7BadRow)) = true ∧
    Reason.freq_small_trans ∉ rowReasons (mkCtx t7Bad (1 / 2) 3 6) t7BadRow (-5) ∧
    detect_suspicious_transactions t7Bad (1 / 2) 3 6 = Except.ok [] := by
  refine ⟨by with_unfolding_all decide, by with_unfolding_all decide,
    by with_unfolding_all decide, by with_unfolding_all decide, by with_unfolding_all rfl⟩

/-- Claim C7 (amended): for a row with a non-empty trimmed lower-cased
description, the burst heuristic fires exactly when at least four rows share
that description, at least four of those have parseable dates, and some
window of four consecutive sorted dates spans at most seven days; when it
fires it fires on every evaluated row sharing the description, and it
contributes its reason at most once per row. -/
theorem claim_C7_burst :
    (∀ (t : Table) (thr oz : ℚ) (rm : Nat) (r : Row) (a : ℚ),
      Reason.freq_small_trans ∈ rowReasons (mkCtx t thr oz rm) r a ↔
        (rowDesc t r ≠ "" ∧ 4 ≤ (groupRows t (rowDesc t r)).length ∧
          4 ≤ (sortedGroupDates t (rowDesc t r)).length ∧
          existsWindow (sortedGroupDates t (rowDesc t r)) = true)) ∧
    (∀ (t : Table) (thr oz : ℚ) (rm : Nat) (r r' : Row) (a a' : ℚ),
      Reason.freq_small_trans ∈ rowReasons (mkCtx t thr oz rm) r a →
      rowDesc t r' = rowDesc t r →
      Reason.freq_small_trans ∈ rowReasons (mkCtx t thr oz rm) r' a') ∧
    (∀ (c : Ctx) (r : Row) (a : ℚ),
      (rowReasons c r a).count Reason.freq_small_trans ≤ 1) := by
  have key : ∀ (t : Table) (thr oz : ℚ) (rm : Nat) (r : Row) (a : ℚ),
      Reason.freq_small_trans ∈ rowReasons (mkCtx t thr oz rm) r a ↔
        (rowDesc t r ≠ "" ∧ 4 ≤ (groupRows t (rowDesc t r)).length ∧
          4 ≤ (sortedGroupDates t (rowDesc t r)).length ∧
          existsWindow (sortedGroupDates t (rowDesc t r)) = true) := by
    intro t thr oz rm r a
    rw [mem_rowReasons_freq]
    unfold freqCond
    dsimp only [mkCtx]
    constructor
    · rintro ⟨_, h2, h3, h4, h5⟩
      exact ⟨h2, h3, h4, h5⟩
    · rintro ⟨h2, h3, h4, h5⟩
      refine ⟨?_, h2, h3, h4, h5⟩
      cases hD : t.hasDate with
      | true => rfl
      | false =>
        exfalso
        have hnil : sortedGroupDates t (rowDesc t r) = [] := by
          unfold sortedGroupDates
          have hfm : (groupRows t (rowDesc t r)).filterMap (fun r2 => getDate t r2) = [] := by
            apply List.filterMap_eq_nil_iff.mpr
            intro x hx
            unfold getDate
            rw [hD]
            rfl
          rw [hfm]
          rfl
        rw [hnil] at h4
        simp at h4
  refine ⟨key, ?_, ?_⟩
  · intro t thr oz rm r r' a a' h hsame
    rw [key t thr oz rm r' a', hsame]
    exact (key t thr oz rm r a).mp h
  · intro c r a
    exact rowReasons_count_le_one c r a Reason.freq_small_trans

/-- Witness for claim C7: the burst reason propagates from the first row of
the firing table to its second row. -/
theorem claim_C7_burst_witness :
    Reason.freq_small_trans ∈
      rowReasons (mkCtx t7Fire (1 / 2) 3 6)
        ⟨some ⟨2025, 3, 2⟩, some "shop", some (-5)⟩ (-5) :=
  claim_C7_burst.2.1 t7Fire (1 / 2) 3 6 t7FireRow _ (-5) (-5)
    (by with_unfolding_all decide) (by with_unfolding_all rfl)

/-- Claim C9: with the general-purpose free-form parser modelled as a
parameter whose behaviour on the three claim inputs that reach it is the
documented pandas coercion, all four date renderings parse to November 16,
2025 (the first through the embedded-pattern fixed formats, the others
through the fallback); inputs without an embedded month-name pattern, or
whose fixed formats all fail, are delegated to the fallback; and total
failure yields null rather than an error. -/
theorem claim_C9_dates (fb : String → Option Date)
    (h1 : fb "16 November 2025" = some ⟨2025, 11, 16⟩)
    (h2 : fb "16-11-2025" = some ⟨2025, 11, 16⟩)
    (h3 : fb "2025-11-16" = some ⟨2025, 11, 16⟩) :
    (parse_date fb "Nov 16, 2025" = some ⟨2025, 11, 16⟩ ∧
      parse_date fb "16 November 2025" = some ⟨2025, 11, 16⟩ ∧
      parse_date fb "16-11-2025" = some ⟨2025, 11, 16⟩ ∧
      parse_date fb "2025-11-16" = some ⟨2025, 11, 16⟩) ∧
    (∀ s : String, dateSearch (trimStr s) = none →
      parse_date fb s = fb (trimStr s)) ∧
    (∀ s m : String, dateSearch (trimStr s) = some m → tryFormats m = none →
      parse_date fb s = fb m) ∧
    (∀ s : String, dateSearch (trimStr s) = none → fb (trimStr s) = none →
      parse_date fb s = none) := by
  have habs : ∀ s : String, dateSearch (trimStr s) = none →
      parse_date fb s = fb (trimStr s) := by
    intro s hs
    unfold parse_date
    rw [hs]
  refine ⟨⟨by with_unfolding_all rfl, h1, h2, h3⟩, habs, ?_, ?_⟩
  · intro s m hs hf
    unfold parse_date
    simp only [hs, hf]
  · intro s hs hfb
    rw [habs s hs, hfb]

/-- Witness for claim C9 with a concrete fallback exhibiting the
documented pandas behaviour on the three delegated inputs. -/
theorem claim_C9_dates_witness :
    parse_date fbWitness "Nov 16, 2025" = some ⟨2025, 11, 16⟩ ∧
    parse_date fbWitness "16 November 2025" = some ⟨2025, 11, 16⟩ ∧
    parse_date fbWitness "16-11-2025" = some ⟨2025, 11, 16⟩ ∧
    parse_date fbWitness "2025-11-16" = some ⟨2025, 11, 16⟩ :=
  (claim_C9_dates fbWitness (by with_unfolding_all rfl) (by with_unfolding_all rfl)
    (by with_unfolding_all rfl)).1

/-- Witness for claim C2: the outlier row of the severity example table
satisfies the absolute z-score bound, via the equivalence. -/
theorem claim_C2_anomalous_witness :
    0 < amtVar c6Tbl ∧
    ((3 : ℚ) : ℝ) ≤ |((-800 - amtMean c6Tbl : ℚ) : ℝ)| /
      Real.sqrt ((amtVar c6Tbl : ℚ) : ℝ) :=
  (claim_C2_anomalous.1 c6Tbl (1 / 2) 3 6
    ⟨some ⟨2025, 1, 20⟩, some "bigbuy", some (-800)⟩ (-800)).mp
    (by with_unfolding_all decide)

/-- Witness for claim C4: the six-hundred debit of the example table
satisfies the unaffordability characterization, via the equivalence. -/
theorem claim_C4_unaffordable_witness :
    (-600 : ℚ) < 0 ∧ 0 < compute_monthly_income c4Tbl ∧
      (1 / 2 : ℚ) * compute_monthly_income c4Tbl < |(-600 : ℚ)| :=
  (claim_C4_unaffordable.1 c4Tbl (1 / 2) 3 6
    ⟨some ⟨2025, 2, 10⟩, some "rent", some (-600)⟩ (-600)).mp
    (by with_unfolding_all decide)
